import Mathlib

set_option maxHeartbeats 1000000

/-!
Verification of the NodeJS Seedlink stations proxy (`index.js` of
nodejs-seedlink-stations-proxy).

Modelling conventions:
* JS strings and Node `Buffer`s are modelled as `List Char`; the wire
  protocol is ASCII, so one char stands for one byte and
  `Buffer.prototype.toString` is the identity on this representation.
* JS numbers are modelled by `JsNum`: `NaN`, signed infinity, or an exact
  rational value.  String-to-number coercion (`Number(...)`) follows the
  ECMAScript StringNumericLiteral grammar with exact rational arithmetic,
  which agrees with IEEE doubles on every value this program handles
  (small integers).
* Timestamps (`Date.now()`) are modelled as `Int` milliseconds.
* The asynchronous socket is modelled by a state type plus handler
  functions (`onData`, `onSocketError`, `onSocketTimeout`) that return the
  updated state together with the list of externally visible actions
  (bytes written to the socket / `socket.destroy()`-plus-callback).
-/

/-! ### JavaScript string primitives -/

/-- Characters removed by `String.prototype.trim` (ECMAScript WhiteSpace
and LineTerminator code points). -/
def jsWhitespaceChars : List Char :=
  ['\t', '\n', '\x0b', '\x0c', '\r', ' ',
   '\u00a0', '\u1680', '\u2000', '\u2001', '\u2002', '\u2003',
   '\u2004', '\u2005', '\u2006', '\u2007', '\u2008', '\u2009',
   '\u200a', '\u2028', '\u2029', '\u202f', '\u205f', '\u3000',
   '\ufeff']

/-- Whether `String.prototype.trim` strips this character. -/
def jsIsSpace (c : Char) : Bool := jsWhitespaceChars.contains c

/-- Model of `String.prototype.trim`: drop leading and trailing
whitespace. -/
def jsTrim (l : List Char) : List Char :=
  ((l.dropWhile jsIsSpace).reverse.dropWhile jsIsSpace).reverse

/-- Normalize a JS `slice` index: negative indices count from the end
(clamped at 0), positive indices are clamped at the length.  Shared by
`String.prototype.slice` and `Buffer.prototype.slice`. -/
def normIdx (len : Nat) (i : Int) : Nat :=
  if i < 0 then ((len : Int) + i).toNat else min i.toNat len

/-- Model of `String.prototype.slice` / `Buffer.prototype.slice`
(without the implicit-end form, which the program never uses). -/
def jsSlice (l : List Char) (s e : Int) : List Char :=
  (l.take (normIdx l.length e)).drop (normIdx l.length s)

/-- Whether `pat` occurs in `l` starting at position `i`. -/
def occursAtB (l pat : List Char) (i : Nat) : Bool :=
  ((l.drop i).take pat.length) == pat

/-- Helper for `jsLastIndexOf`: the largest position `≤ k` at which `pat`
occurs in `l`, or `-1`. -/
def lastIdxFrom (l pat : List Char) : Nat → Int
  | 0 => if occursAtB l pat 0 then 0 else -1
  | i + 1 => if occursAtB l pat (i + 1) then ((i + 1 : Nat) : Int) else lastIdxFrom l pat i

/-- Model of `Buffer.prototype.lastIndexOf` for a nonempty pattern:
the largest start position of an occurrence, or `-1`. -/
def jsLastIndexOf (l pat : List Char) : Int := lastIdxFrom l pat l.length

/-- Model of `String.prototype.split` with a single-character separator
(used as `.split("\n")` and `.split(":")` in the source). -/
def splitOnChar (sep : Char) : List Char → List (List Char)
  | [] => [[]]
  | c :: rest =>
    if c = sep then [] :: splitOnChar sep rest
    else
      match splitOnChar sep rest with
      | [] => [[c]]
      | y :: ys => (c :: y) :: ys

/-- Model of `String.prototype.split("\r\n")` (the source's `CRNL`
delimiter): split at leftmost non-overlapping occurrences of CR LF. -/
def splitCRLF : List Char → List (List Char)
  | [] => [[]]
  | [c] => [[c]]
  | c1 :: c2 :: rest =>
    if c1 = '\r' ∧ c2 = '\n' then [] :: splitCRLF rest
    else
      match splitCRLF (c2 :: rest) with
      | [] => [[c1]]
      | y :: ys => (c1 :: y) :: ys

/-! ### The catalog line parser (`parseResponse`, index.js lines 381-393) -/

/-- One parsed catalog line: `StationRecord` of the spec. -/
structure StationRecord where
  network : String
  station : String
  site : String
deriving DecidableEq, Repr

/-- Model of `SeedlinkStationProxy.prototype.parseResponse`:
`{network: x.slice(0, 2).trim(), station: x.slice(3, 8).trim(),
site: x.slice(9, x.length).trim()}`. -/
def parseResponse (x : List Char) : StationRecord :=
  { network := (jsTrim (jsSlice x 0 2)).asString,
    station := (jsTrim (jsSlice x 3 8)).asString,
    site := (jsTrim (jsSlice x 9 (x.length : Int))).asString }

/-- Formulation of the Catalog Line Parser taken from the spec's words
(spec section 3: "columns 0-1 network, columns 3-7 station, columns 9-end
site", short lines degrade to empty slices).  Used only to compare with
`parseResponse`, which is translated from the source. -/
def specParseResponse (x : List Char) : StationRecord :=
  { network := (jsTrim (x.take 2)).asString,
    station := (jsTrim ((x.drop 3).take 5)).asString,
    site := (jsTrim (x.drop 9)).asString }

/-! ### JavaScript numbers and `Number(...)` coercion -/

/-- A JavaScript number: `NaN`, a signed infinity, or (for every value
this program manipulates) an exact rational. -/
inductive JsNum where
  | nan : JsNum
  | inf : Bool → JsNum
  | val : ℚ → JsNum
deriving DecidableEq, Repr

/-- Whether a `JsNum` is falsy (`NaN` or `±0`), as tested by
`Number(port) || DEFAULT_SEEDLINK_PORT` in `parseHost`. -/
def jsNumFalsy : JsNum → Bool
  | .nan => true
  | .inf _ => false
  | .val q => q == 0

/-- Numeric value of a decimal digit string (digits already checked). -/
def decDigitsVal (l : List Char) : Nat :=
  l.foldl (fun a c => 10 * a + (c.toNat - 48)) 0

/-- Value of a hexadecimal digit, if any. -/
def hexDigitVal (c : Char) : Option Nat :=
  if c.isDigit then some (c.toNat - 48)
  else if 'a' ≤ c ∧ c ≤ 'f' then some (c.toNat - 87)
  else if 'A' ≤ c ∧ c ≤ 'F' then some (c.toNat - 55)
  else none

/-- Value of a digit string in the given radix; `none` when empty or when
a character is not a digit of that radix. -/
def radixVal (radix : Nat) (digitVal : Char → Option Nat) (l : List Char) : Option Nat :=
  if l = [] then none
  else
    l.foldl
      (fun acc c =>
        match acc, digitVal c with
        | some a, some d => if d < radix then some (radix * a + d) else none
        | _, _ => none)
      (some 0)

/-- Build the rational `n / d` in lowest terms using only `Int`/`Nat`
arithmetic (the `Rat` library operations do not reduce inside the
kernel, so every executable path constructs rationals through this
function). -/
def mkQ (n : Int) (d : Nat) : ℚ :=
  let g := Nat.gcd n.natAbs d
  let n2 := n / (g : Int)
  let d2 := d / g
  if h1 : d2 ≠ 0 then
    if h2 : n2.natAbs.Coprime d2 then ⟨n2, d2, h1, h2⟩ else 0
  else 0

/-- The exact value `m * 10 ^ (e - s)` of a decimal literal with mantissa
digits `m`, `s` fraction digits and exponent `e`. -/
def decValue (m : Nat) (s : Nat) (e : Int) : ℚ :=
  match e - (s : Int) with
  | .ofNat k => mkQ ((m : Int) * (10 : Int) ^ k) 1
  | .negSucc k => mkQ (m : Int) (10 ^ (k + 1))

/-- Split a list at the first character satisfying `p`; the second
component is `none` when no such character occurs. -/
def splitAtFirst (p : Char → Bool) : List Char → List Char × Option (List Char)
  | [] => ([], none)
  | c :: rest =>
    if p c then ([], some rest)
    else
      match splitAtFirst p rest with
      | (a, b) => (c :: a, b)

/-- Signed exponent part of a StrDecimalLiteral (the digits after `e`). -/
def parseExponent (l : List Char) : Option Int :=
  match l with
  | '+' :: ds => if ds ≠ [] ∧ ds.all Char.isDigit then some (decDigitsVal ds) else none
  | '-' :: ds => if ds ≠ [] ∧ ds.all Char.isDigit then some (-(decDigitsVal ds : Int)) else none
  | ds => if ds ≠ [] ∧ ds.all Char.isDigit then some (decDigitsVal ds) else none

/-- Unsigned decimal literal (`123`, `1.5`, `.5`, `1.`, with optional
exponent), evaluated exactly. -/
def parseUnsignedDec (l : List Char) : Option ℚ :=
  match splitAtFirst (fun c => c = 'e' ∨ c = 'E') l with
  | (mant, ex) =>
    let expVal : Option Int :=
      match ex with
      | none => some 0
      | some e => parseExponent e
    let mantVal : Option (Nat × Nat) :=
      match splitAtFirst (fun c => c = '.') mant with
      | (ip, none) =>
        if ip ≠ [] ∧ ip.all Char.isDigit then some (decDigitsVal ip, 0) else none
      | (ip, some fp) =>
        if (ip ≠ [] ∨ fp ≠ []) ∧ ip.all Char.isDigit ∧ fp.all Char.isDigit then
          some (decDigitsVal (ip ++ fp), fp.length)
        else none
    match mantVal, expVal with
    | some (m, s), some e => some (decValue m s e)
    | _, _ => none

/-- Signed decimal branch of the StringNumericLiteral grammar
(`[+-]? (Infinity | unsigned decimal)`). -/
def jsDecimal (l : List Char) : JsNum :=
  let signSplit : Bool × List Char :=
    match l with
    | '+' :: r => (false, r)
    | '-' :: r => (true, r)
    | _ => (false, l)
  match signSplit with
  | (neg, r) =>
    if r = "Infinity".toList then JsNum.inf (!neg)
    else
      match parseUnsignedDec r with
      | some q => JsNum.val (if neg then -q else q)
      | none => JsNum.nan

/-- Model of the JS `Number(string)` coercion: trim whitespace, empty
means `0`, `0x`/`0o`/`0b` radix literals, otherwise a signed decimal
literal or `Infinity`; anything else is `NaN`.  Exact rational
arithmetic stands in for IEEE doubles (they agree on the small integers
this program handles). -/
def jsNumber (raw : List Char) : JsNum :=
  let l := jsTrim raw
  match l with
  | [] => JsNum.val 0
  | '0' :: c :: rest =>
    if c = 'x' ∨ c = 'X' then
      match radixVal 16 hexDigitVal rest with
      | some n => JsNum.val (mkQ n 1)
      | none => JsNum.nan
    else if c = 'o' ∨ c = 'O' then
      match radixVal 8 hexDigitVal rest with
      | some n => JsNum.val (mkQ n 1)
      | none => JsNum.nan
    else if c = 'b' ∨ c = 'B' then
      match radixVal 2 hexDigitVal rest with
      | some n => JsNum.val (mkQ n 1)
      | none => JsNum.nan
    else jsDecimal l
  | _ => jsDecimal l

/-- Decimal string of a rational with a finite decimal expansion, as JS
prints it (sign, integer part, point, fraction with no trailing zero).
Values whose denominator divides no `10^k` with `k ≤ 400` cannot be
produced by the `Number` grammar at this magnitude; for them the plain
`num/den` rendering is a placeholder. -/
def ratDecString (q : ℚ) : String :=
  if q.den = 1 then toString q.num
  else
    match (List.range 400).find? (fun k => 10 ^ (k + 1) % q.den = 0) with
    | some k =>
      let n : Int := q.num * ((10 ^ (k + 1) / q.den : Nat) : Int)
      let digits : List Char := (toString n.natAbs).toList
      let digits : List Char :=
        List.replicate (k + 2 - digits.length) '0' ++ digits
      let body : List Char :=
        digits.take (digits.length - (k + 1)) ++ '.' :: digits.drop (digits.length - (k + 1))
      (if n < 0 then "-" else "") ++ body.asString
    | none => toString q

/-- Model of JS number-to-string conversion as used by
`host + ":" + port` (exact for the integral ports this program builds;
no exponent notation, which only appears beyond `1e21`). -/
def jsNumToString : JsNum → String
  | .nan => "NaN"
  | .inf b => if b then "Infinity" else "-Infinity"
  | .val q => ratDecString q

/-! ### The endpoint parser (`parseHost`, index.js lines 134-152) -/

/-- A parsed server endpoint, as returned by `parseHost`:
`{url: host + ":" + port, host: host, port: port}`. -/
structure ServerEndpoint where
  url : String
  host : String
  port : JsNum
deriving DecidableEq, Repr

/-- The port number named by the token: `Number(x.split(":")[1])`, with
`Number(undefined) = NaN` when the token has no colon. -/
def portNumberOf (x : List Char) : JsNum :=
  match (splitOnChar ':' x).get? 1 with
  | none => JsNum.nan
  | some p => jsNumber p

/-- Model of `SeedlinkStationProxy.prototype.parseHost`:
`var [host, port] = x.split(":"); port = Number(port) || 18000;` and the
returned `{url, host, port}` object (default Seedlink port 18000). -/
def parseHost (x : List Char) : ServerEndpoint :=
  let parts := splitOnChar ':' x
  let host := (parts.getD 0 []).asString
  let portNum : JsNum :=
    match parts.get? 1 with
    | none => JsNum.nan
    | some p => jsNumber p
  let port := if jsNumFalsy portNum then JsNum.val 18000 else portNum
  { url := host ++ ":" ++ jsNumToString port, host := host, port := port }

/-! ### Protocol session data (`newRequestData`, index.js lines 248-264) -/

/-- The per-request result object (`QueryResult` of the spec). -/
structure RequestData where
  server : ServerEndpoint
  stations : List StationRecord
  error : Option String
  version : Option String
  identifier : Option String
  connected : Bool
  requested : Int
deriving DecidableEq, Repr

/-- Model of `SeedlinkStationProxy.prototype.newRequestData`: the fresh
request object with `requested = Date.now()`. -/
def newRequestData (server : ServerEndpoint) (now : Int) : RequestData :=
  { server := server, stations := [], error := none, version := none,
    identifier := none, connected := false, requested := now }

/-! ### The protocol session state machine (`checkSeedlink` socket
handlers, index.js lines 302-367) -/

/-- The literal `"CAT command not implemented" + CRNL`. -/
def catNotImplemented : List Char := "CAT command not implemented\r\n".toList

/-- The catalog terminator `"\nEND"`. -/
def endPattern : List Char := "\nEND".toList

/-- The literal `CAT_COMMAND = "CAT" + CRNL`. -/
def catCommand : List Char := "CAT\r\n".toList

/-- One protocol session: the mutable `requestData` object plus the
accumulated receive `buffer`. -/
structure SessionState where
  rd : RequestData
  buffer : List Char
deriving DecidableEq, Repr

/-- Externally visible effects of a socket event handler: bytes written
to the socket, or `finish` — which is `socket.destroy()` followed by
invoking the completion callback with the given request data
(index.js lines 268-280). -/
inductive SessionAction where
  | write : List Char → SessionAction
  | finish : RequestData → SessionAction
deriving DecidableEq, Repr

/-- Model of `SeedlinkStationProxy.prototype.parseBuffer`:
`buffer.slice(0, buffer.lastIndexOf("\nEND")).toString().split("\n").map(parseResponse)`. -/
def parseBuffer (buffer : List Char) : List StationRecord :=
  (splitOnChar '\n' (jsSlice buffer 0 (jsLastIndexOf buffer endPattern))).map parseResponse

/-- Model of the `socket.on("data", ...)` handler (index.js lines
316-352): set `connected`, append the chunk to the buffer, then in
order (1) the HELLO three-part check, which stores version/identifier,
clears the buffer and writes `CAT\r\n`; (2) the
`CAT command not implemented` check; (3) the
`buffer.lastIndexOf("\nEND") === buffer.length - 4` check, which stores
the parsed stations and finishes. -/
def onData (st : SessionState) (data : List Char) : SessionState × List SessionAction :=
  let rd0 := { st.rd with connected := true }
  let buffer := st.buffer ++ data
  if rd0.version = none ∧ (splitCRLF buffer).length = 3 then
    let parts := splitCRLF buffer
    let rd1 := { rd0 with
      version := some ((parts.getD 0 []).asString),
      identifier := some ((parts.getD 1 []).asString) }
    (⟨rd1, []⟩, [SessionAction.write catCommand])
  else
    let step2 : RequestData × List SessionAction :=
      if buffer = catNotImplemented then
        let r := { rd0 with error := some "CATNOTIMPLEMENTED" }
        (r, [SessionAction.finish r])
      else (rd0, [])
    match step2 with
    | (rd1, acts1) =>
      let step3 : RequestData × List SessionAction :=
        if jsLastIndexOf buffer endPattern = (buffer.length : Int) - 4 then
          let r := { rd1 with stations := parseBuffer buffer }
          (r, [SessionAction.finish r])
        else (rd1, [])
      match step3 with
      | (rd2, acts2) => (⟨rd2, buffer⟩, acts1 ++ acts2)

/-- Model of the `socket.on("error", ...)` handler (index.js lines
355-358): record `ECONNREFUSED` and finish. -/
def onSocketError (st : SessionState) : SessionState × List SessionAction :=
  let r := { st.rd with error := some "ECONNREFUSED" }
  (⟨r, st.buffer⟩, [SessionAction.finish r])

/-- Model of the `socket.on("timeout", ...)` handler (index.js lines
361-363): it just emits `"error"`, i.e. runs the error handler. -/
def onSocketTimeout (st : SessionState) : SessionState × List SessionAction :=
  onSocketError st

/-- The state a session starts in after `checkSeedlink` creates
`requestData` and the empty buffer (index.js lines 300-305). -/
def initialSession (server : ServerEndpoint) (now : Int) : SessionState :=
  ⟨newRequestData server now, []⟩

/-! ### The station cache and the orchestrator
(`isCached`, `checkSeedlink` cache guard, `readSeedlinkStations`,
index.js lines 200-246 and 293-298) -/

/-- The `cachedStations` object: an association list keyed by
`server.url`; assignment prepends, so lookup sees the newest binding
(observably identical to JS property assignment). -/
abbrev Cache := List (String × RequestData)

/-- Property lookup on the cache object. -/
def cacheFind (c : Cache) (k : String) : Option RequestData :=
  match c with
  | [] => none
  | (k2, v) :: rest => if k2 = k then some v else cacheFind rest k

/-- Model of `this.cachedStations[server.url] = result`. -/
def cacheSet (c : Cache) (k : String) (v : RequestData) : Cache :=
  (k, v) :: c

/-- The process-wide configuration consumed by the core:
`REFRESH_INTERVAL_MS` (the cache TTL). -/
structure ProxyConfig where
  refreshIntervalMS : Int

/-- Model of `SeedlinkStationProxy.prototype.isCached`:
`cachedStations[host].requested > Date.now() - REFRESH_INTERVAL_MS`.
The source reads the entry unconditionally and is only ever called
under the `hasOwnProperty` guard in `checkSeedlink`; a missing entry
(which would throw there) is mapped to `false`. -/
def isCached (cfg : ProxyConfig) (cache : Cache) (now : Int) (host : String) : Bool :=
  match cacheFind cache host with
  | some v => decide (v.requested > now - cfg.refreshIntervalMS)
  | none => false

/-- Model of the synchronous cache guard of
`SeedlinkStationProxy.prototype.checkSeedlink` (index.js lines 293-298)
around one probe.  The probe itself (the TCP session of `onData`,
`onSocketError`, `onSocketTimeout`) is abstracted by the environment
function `probe`, which yields the request data the session's completion
callback would deliver for that endpoint.  Returns the delivered result
together with `true` when a fresh TCP session was opened and `false`
when the cached object was returned. -/
def checkSeedlink (cfg : ProxyConfig) (now : Int) (probe : ServerEndpoint → RequestData)
    (cache : Cache) (server : ServerEndpoint) : RequestData × Bool :=
  match cacheFind cache server.url with
  | some entry =>
    if isCached cfg cache now server.url then (entry, false)
    else (probe server, true)
  | none => (probe server, true)

/-- The recursive `next()` loop of
`SeedlinkStationProxy.prototype.readSeedlinkStations` (index.js lines
210-232), expressed over the reversed server list: each step is one
`servers.pop()` (hence the reversal), one `checkSeedlink` call, the
conditional cache write `if (result.error === null)
cachedStations[server.url] = result`, and `results.push(result)`;
`callback(results)` is the returned list.  The recursion only moves to
the next server after the previous probe's completion callback has
delivered its result — the sessions are strictly sequential. -/
def readLoop (cfg : ProxyConfig) (now : Int) (probe : ServerEndpoint → RequestData) :
    List ServerEndpoint → Cache → List RequestData → List RequestData × Cache
  | [], cache, results => (results, cache)
  | server :: rest, cache, results =>
    let r := (checkSeedlink cfg now probe cache server).1
    let cache2 := if r.error = none then cacheSet cache server.url r else cache
    readLoop cfg now probe rest cache2 (results ++ [r])

/-- Model of `SeedlinkStationProxy.prototype.readSeedlinkStations`.
The source pops servers off the END of the input array, so the loop
runs over `servers.reverse`.  On an empty input the source throws
(`servers.pop()` yields `undefined` and `server.url` fails); the `[]`
case of `readLoop` is therefore never exercised by the theorems, which
assume a nonempty input. -/
def readSeedlinkStations (cfg : ProxyConfig) (now : Int)
    (probe : ServerEndpoint → RequestData) (servers : List ServerEndpoint)
    (cache : Cache) : List RequestData × Cache :=
  readLoop cfg now probe servers.reverse cache []

/-- The cache invariant of spec section 3: every stored entry is a
successful result (`error == null`). -/
def cacheErrFree (c : Cache) : Prop :=
  ∀ k e, cacheFind c k = some e → e.error = none

/-- Cache well-formedness used for orchestration bookkeeping: every
entry is stored under its own endpoint key. -/
def cacheKeyed (c : Cache) : Prop :=
  ∀ k e, cacheFind c k = some e → e.server.url = k

/-! ### Concrete sample data for the witnesses -/

/-- A concrete endpoint used by the witnesses. -/
def sampleServer : ServerEndpoint :=
  { url := "geofon.gfz-potsdam.de:18000", host := "geofon.gfz-potsdam.de",
    port := JsNum.val 18000 }

/-- A second concrete endpoint used by the witnesses. -/
def sampleServer2 : ServerEndpoint :=
  { url := "rtserve.iris.washington.edu:18000",
    host := "rtserve.iris.washington.edu", port := JsNum.val 18000 }

/-- A successful cached result used by the witnesses. -/
def sampleEntry : RequestData :=
  { server := sampleServer, stations := [], error := none,
    version := some "SeedLink v3.1 (2014.071)", identifier := some "GEOFON",
    connected := true, requested := 900 }

/-- An environment in which every fresh probe succeeds. -/
def sampleProbe : ServerEndpoint → RequestData :=
  fun s => { server := s, stations := [], error := none,
             version := some "SeedLink v3.1", identifier := some "TEST",
             connected := true, requested := 1000 }

/-- An environment in which every fresh probe is refused. -/
def sampleProbeFail : ServerEndpoint → RequestData :=
  fun s => { server := s, stations := [], error := some "ECONNREFUSED",
             version := none, identifier := none,
             connected := false, requested := 1000 }

/-- A sample configuration with a one-second TTL. -/
def sampleConfig : ProxyConfig := { refreshIntervalMS := 1000 }

/-- The request data after a successful catalog completion on receive
buffer `pre ++ "\nEND"`: `connected` set, `stations` holding the parse
of each newline-separated line of `pre`, everything else untouched. -/
def catalogDone (rd : RequestData) (pre : List Char) : RequestData :=
  { rd with
      connected := true
      stations := (splitOnChar '\n' pre).map parseResponse }

/-- The request data after the HELLO handshake completes on receive
buffer `buf`: `connected` set, version and identifier taken from the
first two CRLF-separated parts. -/
def helloDone (rd : RequestData) (buf : List Char) : RequestData :=
  { rd with
      connected := true
      version := some (((splitCRLF buf).getD 0 []).asString)
      identifier := some (((splitCRLF buf).getD 1 []).asString) }

/-- A one-entry cache holding `sampleEntry`, used by the witnesses. -/
def sampleCache : Cache := [(sampleServer.url, sampleEntry)]

/-! ### Helper lemmas about the JS primitives -/

theorem normIdx_ofNat (len a : Nat) : normIdx len (a : Int) = min a len := by
  simp [normIdx, Int.toNat_ofNat]

theorem jsSlice_natCast (l : List Char) (a b : Nat) :
    jsSlice l (a : Int) (b : Int) = (l.take b).drop a := by
  unfold jsSlice
  rw [normIdx_ofNat, normIdx_ofNat]
  rcases le_total b l.length with hb | hb
  · rw [min_eq_left hb]
    rcases le_total a l.length with ha | ha
    · rw [min_eq_left ha]
    · rw [min_eq_right ha]
      rw [List.drop_eq_nil_of_le, List.drop_eq_nil_of_le]
      · simp only [List.length_take]
        omega
      · simp only [List.length_take]
        omega
  · rw [min_eq_right hb, List.take_length, List.take_of_length_le hb]
    rcases le_total a l.length with ha | ha
    · rw [min_eq_left ha]
    · rw [min_eq_right ha]
      rw [List.drop_eq_nil_of_le le_rfl, List.drop_eq_nil_of_le ha]

theorem jsSlice_zero_two (x : List Char) : jsSlice x 0 2 = x.take 2 := by
  have h := jsSlice_natCast x 0 2
  simpa using h

theorem jsSlice_three_eight (x : List Char) : jsSlice x 3 8 = (x.drop 3).take 5 := by
  have h := jsSlice_natCast x 3 8
  rw [List.drop_take] at h
  simpa using h

theorem jsSlice_nine_len (x : List Char) : jsSlice x 9 (x.length : Int) = x.drop 9 := by
  have h := jsSlice_natCast x 9 x.length
  rw [List.take_length] at h
  simpa using h

/-- C7: the Catalog Line Parser `parseResponse` is total and computes
exactly the fixed-column record described by the spec (columns 0-1
network, columns 3-7 station, columns 9-end site, each trimmed), with
out-of-range slices degrading to empty strings rather than failing. -/
theorem claim7_parse_response_columns (x : List Char) :
    parseResponse x = specParseResponse x := by
  unfold parseResponse specParseResponse
  rw [jsSlice_zero_two, jsSlice_three_eight, jsSlice_nine_len]

/-- C8 counterexample: on the spec's example line
`"IU RAND United States"` the parser does not return site
`"United States"` (column 9 falls inside the word `United`). -/
theorem claim8_counterexample :
    ¬ (parseResponse ("IU RAND United States".toList) =
        { network := "IU", station := "RAND", site := "United States" }) := by
  decide

/-- C8 amended: parsing the catalog line `"IU RAND United States"`
yields exactly `{network := "IU", station := "RAND", site := "nited
States"}` — the site column starts at index 9, which is the `n` of
`United` in this single-space line. -/
theorem claim8_parse_example :
    parseResponse ("IU RAND United States".toList) =
      { network := "IU", station := "RAND", site := "nited States" } := by
  decide

theorem occursAtB_append_self (pre pat : List Char) :
    occursAtB (pre ++ pat) pat pre.length = true := by
  unfold occursAtB
  rw [List.drop_left, List.take_length]
  exact beq_self_eq_true pat

theorem occursAtB_false_of_big (l pat : List Char) (i : Nat) (hp : pat ≠ [])
    (h : l.length < i + pat.length) : occursAtB l pat i = false := by
  unfold occursAtB
  rw [beq_eq_false_iff_ne]
  intro heq
  have hlen := congrArg List.length heq
  simp only [List.length_take, List.length_drop] at hlen
  have hpl : 0 < pat.length := List.length_pos.mpr hp
  omega

theorem lastIdxFrom_eq_of_occ (l pat : List Char) (a : Nat) :
    ∀ k, a ≤ k → occursAtB l pat a = true →
      (∀ j, a < j → j ≤ k → occursAtB l pat j = false) →
      lastIdxFrom l pat k = (a : Int)
  | 0, hak, hocc, _ => by
    have ha0 : a = 0 := Nat.le_zero.mp hak
    subst ha0
    simp [lastIdxFrom, hocc]
  | k + 1, hak, hocc, hno => by
    by_cases hEq : a = k + 1
    · subst hEq
      simp [lastIdxFrom, hocc]
    · have hlt : a ≤ k := by omega
      have hfalse : occursAtB l pat (k + 1) = false := hno (k + 1) (by omega) le_rfl
      simp only [lastIdxFrom, hfalse, Bool.false_eq_true, if_false]
      exact lastIdxFrom_eq_of_occ l pat a k hlt hocc
        (fun j hj1 hj2 => hno j hj1 (by omega))

theorem lastIdxFrom_eq_neg (l pat : List Char) :
    ∀ k, (∀ j, j ≤ k → occursAtB l pat j = false) → lastIdxFrom l pat k = -1
  | 0, h => by simp [lastIdxFrom, h 0 le_rfl]
  | k + 1, h => by
    have hfalse := h (k + 1) le_rfl
    simp only [lastIdxFrom, hfalse, Bool.false_eq_true, if_false]
    exact lastIdxFrom_eq_neg l pat k (fun j hj => h j (by omega))

theorem jsLastIndexOf_append (pre pat : List Char) (hp : pat ≠ []) :
    jsLastIndexOf (pre ++ pat) pat = (pre.length : Int) := by
  unfold jsLastIndexOf
  apply lastIdxFrom_eq_of_occ
  · rw [List.length_append]
    omega
  · exact occursAtB_append_self pre pat
  · intro j hj1 hj2
    apply occursAtB_false_of_big _ _ _ hp
    rw [List.length_append] at hj2 ⊢
    omega

theorem jsLastIndexOf_short (l pat : List Char) (hp : pat ≠ [])
    (h : l.length < pat.length) : jsLastIndexOf l pat = -1 := by
  unfold jsLastIndexOf
  apply lastIdxFrom_eq_neg
  intro j _
  apply occursAtB_false_of_big _ _ _ hp
  omega

theorem splitCRLF_ne_nil : ∀ l : List Char, splitCRLF l ≠ []
  | [] => by simp [splitCRLF]
  | [c] => by simp [splitCRLF]
  | c1 :: c2 :: rest => by
    unfold splitCRLF
    by_cases h : c1 = '\r' ∧ c2 = '\n'
    · simp [h]
    · rw [if_neg h]
      cases hs : splitCRLF (c2 :: rest) <;> simp

theorem splitCRLF_two_mul : ∀ l : List Char, 2 * (splitCRLF l).length ≤ l.length + 2
  | [] => by simp [splitCRLF]
  | [c] => by simp [splitCRLF]
  | c1 :: c2 :: rest => by
    unfold splitCRLF
    by_cases h : c1 = '\r' ∧ c2 = '\n'
    · rw [if_pos h]
      have ih := splitCRLF_two_mul rest
      simp only [List.length_cons]
      omega
    · rw [if_neg h]
      have ih := splitCRLF_two_mul (c2 :: rest)
      cases hs : splitCRLF (c2 :: rest) with
      | nil => exact absurd hs (splitCRLF_ne_nil _)
      | cons y ys =>
        rw [hs] at ih
        simp only [List.length_cons] at ih ⊢
        omega

theorem parseBuffer_append_end (pre : List Char) :
    parseBuffer (pre ++ endPattern) = (splitOnChar '\n' pre).map parseResponse := by
  unfold parseBuffer
  rw [jsLastIndexOf_append pre endPattern (by decide)]
  have h2 : jsSlice (pre ++ endPattern) 0 (pre.length : Int) = pre := by
    have h := jsSlice_natCast (pre ++ endPattern) 0 pre.length
    simpa [List.take_left] using h
  rw [h2]

/-- C1: in the catalog phase (version already set, no error recorded),
whenever the accumulated receive buffer ends with the 4-byte sequence
`"\nEND"`, the data handler completes the session: `stations` becomes
the lines before the trailing `"\nEND"`, split on `'\n'` and each run
through `parseResponse` in order, `error` remains `null`, and the
session is finished (socket destroyed, completion callback invoked)
exactly once with this result. -/
theorem claim1_catalog_completion (st : SessionState) (data pre : List Char)
    (hver : st.rd.version ≠ none) (herr : st.rd.error = none)
    (hbuf : st.buffer ++ data = pre ++ endPattern) :
    onData st data =
      (⟨catalogDone st.rd pre, pre ++ endPattern⟩,
       [SessionAction.finish (catalogDone st.rd pre)]) ∧
    (catalogDone st.rd pre).error = none := by
  have hc2 : pre ++ endPattern ≠ catNotImplemented := by
    intro h
    have hl := congrArg List.length h
    rw [List.length_append] at hl
    have h4 : endPattern.length = 4 := by decide
    have h29 : catNotImplemented.length = 29 := by decide
    have hpre : pre.length = 25 := by omega
    have hd := congrArg (List.drop pre.length) h
    rw [List.drop_left, hpre] at hd
    have hne : endPattern ≠ catNotImplemented.drop 25 := by decide
    exact hne hd
  have hc3 : jsLastIndexOf (pre ++ endPattern) endPattern =
      ((pre ++ endPattern).length : Int) - 4 := by
    rw [jsLastIndexOf_append pre endPattern (by decide), List.length_append]
    have h4 : endPattern.length = 4 := by decide
    rw [h4]
    push_cast
    ring
  constructor
  · simp only [onData]
    rw [hbuf]
    rw [if_neg (fun h => hver h.1), if_neg hc2, if_pos hc3]
    rw [parseBuffer_append_end]
    rfl
  · exact herr

/-- C1 witness: a concrete catalog-phase session whose buffer ends with
`"\nEND"` completes with the two parsed lines. -/
theorem claim1_witness :
    onData
      (⟨{ newRequestData sampleServer 0 with
            version := some "SeedLink v3.1"
            identifier := some "GEOFON" },
         "GE APE  Greece\n".toList⟩ : SessionState)
      ("GE ISP  Greece\nEND".toList) =
      (⟨catalogDone
          { newRequestData sampleServer 0 with
              version := some "SeedLink v3.1"
              identifier := some "GEOFON" }
          ("GE APE  Greece\nGE ISP  Greece".toList),
        "GE APE  Greece\nGE ISP  Greece".toList ++ endPattern⟩,
       [SessionAction.finish
         (catalogDone
           { newRequestData sampleServer 0 with
               version := some "SeedLink v3.1"
               identifier := some "GEOFON" }
           ("GE APE  Greece\nGE ISP  Greece".toList))]) ∧
    (catalogDone
      { newRequestData sampleServer 0 with
          version := some "SeedLink v3.1"
          identifier := some "GEOFON" }
      ("GE APE  Greece\nGE ISP  Greece".toList)).error = none :=
  claim1_catalog_completion
    ⟨{ newRequestData sampleServer 0 with
         version := some "SeedLink v3.1"
         identifier := some "GEOFON" },
      "GE APE  Greece\n".toList⟩
    ("GE ISP  Greece\nEND".toList)
    ("GE APE  Greece\nGE ISP  Greece".toList)
    (by decide) (by decide) (by decide)

/-- C2 amended: while awaiting the HELLO response (version still null),
the handshake completes exactly when the buffer split on CRLF yields
three parts — version and identifier are then set from the first two
parts, the buffer is cleared and the literal bytes `"CAT\r\n"` are
written — and a chunk that does not yield three parts is simply
retained PROVIDED the grown buffer also fails the catalog-phase checks
(it is not the literal `CAT command not implemented\r\n` and does not
satisfy `lastIndexOf("\nEND") == length - 4`); those checks also run in
the HELLO phase and can terminate the session from it. -/
theorem claim2_hello_handshake :
    (∀ (st : SessionState) (data : List Char),
        st.rd.version = none →
        (splitCRLF (st.buffer ++ data)).length = 3 →
        onData st data =
          (⟨helloDone st.rd (st.buffer ++ data), []⟩,
           [SessionAction.write catCommand])) ∧
    (∀ (st : SessionState) (data : List Char),
        st.rd.version = none →
        (splitCRLF (st.buffer ++ data)).length ≠ 3 →
        st.buffer ++ data ≠ catNotImplemented →
        jsLastIndexOf (st.buffer ++ data) endPattern ≠ ((st.buffer ++ data).length : Int) - 4 →
        onData st data =
          (⟨{ st.rd with connected := true }, st.buffer ++ data⟩, [])) := by
  constructor
  · intro st data hver hsplit
    simp only [onData]
    rw [if_pos ⟨hver, hsplit⟩]
    rfl
  · intro st data hver hsplit hcat hend
    simp only [onData]
    rw [if_neg (fun h => hsplit h.2), if_neg hcat, if_neg hend]
    rfl

/-- C2 counterexample: from the initial state (version null, empty
buffer) the single chunk `"x\nEND"` does not yield three CRLF parts,
yet it is not retained for re-evaluation: the session finishes at once
(with `error = null` and `version` still null), because the catalog
`"\nEND"` check also runs in the HELLO phase — contradicting the
claimed "no other transition out of this phase (apart from
timeout/error)". -/
theorem claim2_counterexample :
    (initialSession sampleServer 0).rd.version = none ∧
    (splitCRLF ("x\nEND".toList)).length ≠ 3 ∧
    (onData (initialSession sampleServer 0) ("x\nEND".toList)).2 =
      [SessionAction.finish
        { server := sampleServer, stations := [⟨"x", "", ""⟩], error := none,
          version := none, identifier := none, connected := true, requested := 0 }] := by
  refine ⟨by decide, by decide, by decide⟩

/-- C2 witness: with a fresh session, a complete two-line CRLF response
sets version and identifier and writes `"CAT\r\n"`; an incomplete chunk
with no catalog-termination pattern is retained. -/
theorem claim2_witness :
    onData (initialSession sampleServer 0) ("SL v3.1\r\nGEOFON\r\n".toList) =
      (⟨helloDone (initialSession sampleServer 0).rd ("SL v3.1\r\nGEOFON\r\n".toList), []⟩,
       [SessionAction.write catCommand]) ∧
    onData (initialSession sampleServer 0) ("SL v3".toList) =
      (⟨{ (initialSession sampleServer 0).rd with connected := true }, "SL v3".toList⟩, []) :=
  ⟨claim2_hello_handshake.1 (initialSession sampleServer 0) ("SL v3.1\r\nGEOFON\r\n".toList)
      (by decide) (by decide),
   claim2_hello_handshake.2 (initialSession sampleServer 0) ("SL v3".toList)
      (by decide) (by decide) (by decide) (by decide)⟩

/-- C10: any data event that leaves the accumulated buffer exactly 3
bytes long (which can neither contain `"\nEND"` nor complete the HELLO
three-part split) nevertheless passes the catalog-completion test —
`buffer.lastIndexOf("\nEND")` and `buffer.length - 4` are both `-1` —
so the session terminates with `error = null` and `stations` set to the
parse of the buffer's first two bytes (`slice(0, -1)` keeps everything
but the last byte). -/
theorem claim10_three_byte_completion (st : SessionState) (data : List Char)
    (hlen : (st.buffer ++ data).length = 3) (herr : st.rd.error = none) :
    jsLastIndexOf (st.buffer ++ data) endPattern = -1 ∧
    ((st.buffer ++ data).length : Int) - 4 = -1 ∧
    (onData st data).2 =
      [SessionAction.finish (catalogDone st.rd ((st.buffer ++ data).take 2))] ∧
    (catalogDone st.rd ((st.buffer ++ data).take 2)).error = none := by
  have hend : jsLastIndexOf (st.buffer ++ data) endPattern = -1 := by
    apply jsLastIndexOf_short _ _ (by decide)
    rw [hlen]
    decide
  have hint : ((st.buffer ++ data).length : Int) - 4 = -1 := by
    rw [hlen]
    decide
  have hc1 : ¬(({ st.rd with connected := true } : RequestData).version = none ∧
      (splitCRLF (st.buffer ++ data)).length = 3) := by
    rintro ⟨-, h3⟩
    have hb := splitCRLF_two_mul (st.buffer ++ data)
    rw [h3, hlen] at hb
    omega
  have hc2 : st.buffer ++ data ≠ catNotImplemented := by
    intro h
    have hl := congrArg List.length h
    have h29 : catNotImplemented.length = 29 := by decide
    rw [hlen, h29] at hl
    omega
  have hc3 : jsLastIndexOf (st.buffer ++ data) endPattern =
      ((st.buffer ++ data).length : Int) - 4 := by
    rw [hend, hint]
  have hslice : parseBuffer (st.buffer ++ data) =
      (splitOnChar '\n' ((st.buffer ++ data).take 2)).map parseResponse := by
    unfold parseBuffer
    rw [hend]
    have hnorm : jsSlice (st.buffer ++ data) 0 (-1) = (st.buffer ++ data).take 2 := by
      unfold jsSlice normIdx
      rw [hlen]
      norm_num
      rfl
    rw [hnorm]
  refine ⟨hend, hint, ?_, herr⟩
  simp only [onData]
  rw [if_neg hc1, if_neg hc2, if_pos hc3, hslice]
  rfl

/-- C10 witness: the 3-byte first chunk `"IU\n"` of a fresh session
terminates it at once with the parse of `"IU"`. -/
theorem claim10_witness :
    jsLastIndexOf ("IU\n".toList) endPattern = -1 ∧
    (("IU\n".toList).length : Int) - 4 = -1 ∧
    (onData (initialSession sampleServer2 0) ("IU\n".toList)).2 =
      [SessionAction.finish
        (catalogDone (initialSession sampleServer2 0).rd (("IU\n".toList).take 2))] ∧
    (catalogDone (initialSession sampleServer2 0).rd (("IU\n".toList).take 2)).error = none :=
  claim10_three_byte_completion (initialSession sampleServer2 0) ("IU\n".toList)
    (by decide) (by decide)

/-- C6: in every session state, a socket error event — and a timeout
event, which the source forwards to the error handler — produces a
terminal result with `error = "ECONNREFUSED"` and finishes the session
(socket destroyed, completion callback invoked); additionally, when no
data was ever received (`connected` still false, `stations` still
empty) the delivered result keeps `connected = false` and empty
`stations`. -/
theorem claim6_error_timeout (st : SessionState) :
    onSocketTimeout st = onSocketError st ∧
    onSocketError st =
      (⟨{ st.rd with error := some "ECONNREFUSED" }, st.buffer⟩,
       [SessionAction.finish { st.rd with error := some "ECONNREFUSED" }]) ∧
    (st.rd.connected = false →
      ({ st.rd with error := some "ECONNREFUSED" } : RequestData).connected = false) ∧
    (st.rd.stations = [] →
      ({ st.rd with error := some "ECONNREFUSED" } : RequestData).stations = []) :=
  ⟨rfl, rfl, fun hc => hc, fun hs => hs⟩

/-- C6 witness: a fresh session that errors before any data delivers
`ECONNREFUSED` with `connected = false` and no stations. -/
theorem claim6_witness :
    onSocketTimeout (initialSession sampleServer 0) =
      onSocketError (initialSession sampleServer 0) ∧
    onSocketError (initialSession sampleServer 0) =
      (⟨{ (initialSession sampleServer 0).rd with error := some "ECONNREFUSED" },
         (initialSession sampleServer 0).buffer⟩,
       [SessionAction.finish
         { (initialSession sampleServer 0).rd with error := some "ECONNREFUSED" }]) ∧
    ({ (initialSession sampleServer 0).rd with
        error := some "ECONNREFUSED" } : RequestData).connected = false ∧
    ({ (initialSession sampleServer 0).rd with
        error := some "ECONNREFUSED" } : RequestData).stations = [] :=
  ⟨(claim6_error_timeout (initialSession sampleServer 0)).1,
   (claim6_error_timeout (initialSession sampleServer 0)).2.1,
   (claim6_error_timeout (initialSession sampleServer 0)).2.2.1 (by decide),
   (claim6_error_timeout (initialSession sampleServer 0)).2.2.2 (by decide)⟩

theorem cacheFind_set (c : Cache) (k k2 : String) (v : RequestData) :
    cacheFind (cacheSet c k v) k2 = if k = k2 then some v else cacheFind c k2 := rfl

theorem checkSeedlink_url (cfg : ProxyConfig) (now : Int)
    (probe : ServerEndpoint → RequestData) (cache : Cache) (server : ServerEndpoint)
    (hprobe : ∀ s, (probe s).server = s) (hkey : cacheKeyed cache) :
    ((checkSeedlink cfg now probe cache server).1).server.url = server.url := by
  unfold checkSeedlink
  cases hfind : cacheFind cache server.url with
  | none => simp [hprobe]
  | some entry =>
    by_cases hca : isCached cfg cache now server.url = true
    · simpa [hca] using hkey _ _ hfind
    · simp [hca, hprobe]

theorem cacheKeyed_step (cache : Cache) (server : ServerEndpoint) (r : RequestData)
    (hkey : cacheKeyed cache) (hurl : r.server.url = server.url) :
    cacheKeyed (if r.error = none then cacheSet cache server.url r else cache) := by
  by_cases he : r.error = none
  · rw [if_pos he]
    intro k e hfind
    rw [cacheFind_set] at hfind
    by_cases hkk : server.url = k
    · rw [if_pos hkk] at hfind
      cases hfind
      rw [hurl]
      exact hkk
    · rw [if_neg hkk] at hfind
      exact hkey k e hfind
  · rw [if_neg he]
    exact hkey

theorem readLoop_map_url (cfg : ProxyConfig) (now : Int)
    (probe : ServerEndpoint → RequestData) (hprobe : ∀ s, (probe s).server = s) :
    ∀ (lst : List ServerEndpoint) (cache : Cache) (acc : List RequestData),
      cacheKeyed cache →
      ((readLoop cfg now probe lst cache acc).1).map (fun r => r.server.url) =
        acc.map (fun r => r.server.url) ++ lst.map (fun s => s.url)
  | [], cache, acc, _ => by simp [readLoop]
  | server :: rest, cache, acc, hkey => by
    have hurl := checkSeedlink_url cfg now probe cache server hprobe hkey
    have hkey2 := cacheKeyed_step cache server
      ((checkSeedlink cfg now probe cache server).1) hkey hurl
    unfold readLoop
    rw [readLoop_map_url cfg now probe hprobe rest _ _ hkey2]
    simp [hurl]

theorem readLoop_errfree (cfg : ProxyConfig) (now : Int)
    (probe : ServerEndpoint → RequestData) :
    ∀ (lst : List ServerEndpoint) (cache : Cache) (acc : List RequestData),
      cacheErrFree cache → cacheErrFree (readLoop cfg now probe lst cache acc).2
  | [], cache, acc, h => by
    simpa [readLoop] using h
  | server :: rest, cache, acc, h => by
    unfold readLoop
    apply readLoop_errfree
    by_cases he : (checkSeedlink cfg now probe cache server).1.error = none
    · rw [if_pos he]
      intro k e hfind
      rw [cacheFind_set] at hfind
      by_cases hkk : server.url = k
      · rw [if_pos hkk] at hfind
        cases hfind
        exact he
      · rw [if_neg hkk] at hfind
        exact h k e hfind
    · rw [if_neg he]
      exact h

/-- C3: `readSeedlinkStations` runs the probes strictly sequentially
(the model's recursion only reaches the next endpoint after the
previous probe's completion callback has delivered its result, exactly
like the source's `pop`-then-recurse loop) and its callback fires
exactly once, with exactly `N` results — one per input endpoint — in
the reverse of the input order, because endpoints are popped from the
end of the input list. -/
theorem claim3_sequential_reverse_order (cfg : ProxyConfig) (now : Int)
    (probe : ServerEndpoint → RequestData) (servers : List ServerEndpoint)
    (cache : Cache) (hne : servers ≠ [])
    (hprobe : ∀ s, (probe s).server = s) (hkey : cacheKeyed cache) :
    ((readSeedlinkStations cfg now probe servers cache).1).length = servers.length ∧
    ((readSeedlinkStations cfg now probe servers cache).1).map (fun r => r.server.url) =
      (servers.reverse).map (fun s => s.url) := by
  have h := readLoop_map_url cfg now probe hprobe servers.reverse cache [] hkey
  unfold readSeedlinkStations
  refine ⟨?_, by simpa using h⟩
  have hl := congrArg List.length h
  simpa using hl

/-- C3 witness: two concrete endpoints produce two results in reverse
input order. -/
theorem claim3_witness :
    ((readSeedlinkStations sampleConfig 1000 sampleProbe
        [sampleServer, sampleServer2] []).1).length = 2 ∧
    ((readSeedlinkStations sampleConfig 1000 sampleProbe
        [sampleServer, sampleServer2] []).1).map (fun r => r.server.url) =
      [sampleServer2.url, sampleServer.url] :=
  claim3_sequential_reverse_order sampleConfig 1000 sampleProbe
    [sampleServer, sampleServer2] [] (by simp)
    (fun _ => rfl) (fun _ _ he => Option.noConfusion he)

/-- C4: only results with `error == null` are written into the station
cache, so an error-free cache stays error-free across any orchestration
run (the reachable-state invariant), and a failing endpoint is never
cached: when it is absent from the cache and its probe fails, the probe
opens a fresh TCP session and the endpoint is still absent afterwards,
so every later request probes it again. -/
theorem claim4_cache_error_invariant (cfg : ProxyConfig) (now : Int)
    (probe : ServerEndpoint → RequestData) (servers : List ServerEndpoint)
    (cache : Cache) (hfree : cacheErrFree cache) :
    cacheErrFree (readSeedlinkStations cfg now probe servers cache).2 ∧
    (∀ s : ServerEndpoint, cacheFind cache s.url = none → (probe s).error ≠ none →
      (checkSeedlink cfg now probe cache s).2 = true ∧
      cacheFind (readSeedlinkStations cfg now probe [s] cache).2 s.url = none) := by
  constructor
  · exact readLoop_errfree cfg now probe servers.reverse cache [] hfree
  · intro s hnone herrp
    have hr : checkSeedlink cfg now probe cache s = (probe s, true) := by
      unfold checkSeedlink
      rw [hnone]
    refine ⟨by rw [hr], ?_⟩
    unfold readSeedlinkStations
    simp only [List.reverse_cons, List.reverse_nil, List.nil_append]
    unfold readLoop
    rw [hr]
    simp only [if_neg herrp]
    unfold readLoop
    exact hnone

/-- C4 witness: a failing probe for an uncached endpoint leaves the
cache empty of it and error-free, after a fresh TCP attempt. -/
theorem claim4_witness :
    cacheErrFree (readSeedlinkStations sampleConfig 1000 sampleProbeFail
      [sampleServer] []).2 ∧
    (checkSeedlink sampleConfig 1000 sampleProbeFail [] sampleServer).2 = true ∧
    cacheFind (readSeedlinkStations sampleConfig 1000 sampleProbeFail
      [sampleServer] []).2 sampleServer.url = none := by
  have h := claim4_cache_error_invariant sampleConfig 1000 sampleProbeFail
    [sampleServer] [] (fun _ _ he => Option.noConfusion he)
  have h2 := h.2 sampleServer rfl (by decide)
  exact ⟨h.1, h2.1, h2.2⟩

theorem checkSeedlink_none (cfg : ProxyConfig) (now : Int)
    (probe : ServerEndpoint → RequestData) (cache : Cache) (s : ServerEndpoint)
    (hfind : cacheFind cache s.url = none) :
    checkSeedlink cfg now probe cache s = (probe s, true) := by
  unfold checkSeedlink
  rw [hfind]

theorem checkSeedlink_some (cfg : ProxyConfig) (now : Int)
    (probe : ServerEndpoint → RequestData) (cache : Cache) (s : ServerEndpoint)
    (entry : RequestData) (hfind : cacheFind cache s.url = some entry) :
    checkSeedlink cfg now probe cache s =
      if entry.requested > now - cfg.refreshIntervalMS then (entry, false)
      else (probe s, true) := by
  unfold checkSeedlink isCached
  rw [hfind]
  by_cases h : entry.requested > now - cfg.refreshIntervalMS
  · simp [h]
  · simp [h]

/-- C5: `checkSeedlink` answers from the cache — delivering the
identical cached object to the callback and opening no TCP connection —
exactly when an entry for the endpoint's key is present and
`now - entry.requested < REFRESH_INTERVAL_MS` at lookup time; otherwise
it runs a fresh probe, and an expired entry is only ignored, never
deleted: it stays in the cache until a later successful probe
overwrites it. -/
theorem claim5_cache_lookup (cfg : ProxyConfig) (now : Int)
    (probe : ServerEndpoint → RequestData) (cache : Cache) (s : ServerEndpoint) :
    (∀ e : RequestData,
        checkSeedlink cfg now probe cache s = (e, false) ↔
          (cacheFind cache s.url = some e ∧ now - e.requested < cfg.refreshIntervalMS)) ∧
    (∀ e : RequestData, cacheFind cache s.url = some e →
        ¬(now - e.requested < cfg.refreshIntervalMS) →
        checkSeedlink cfg now probe cache s = (probe s, true) ∧
        ((probe s).error ≠ none →
          cacheFind (readSeedlinkStations cfg now probe [s] cache).2 s.url = some e) ∧
        ((probe s).error = none →
          cacheFind (readSeedlinkStations cfg now probe [s] cache).2 s.url =
            some (probe s))) := by
  constructor
  · intro e
    cases hfind : cacheFind cache s.url with
    | none =>
      rw [checkSeedlink_none cfg now probe cache s hfind]
      simp [Prod.ext_iff]
    | some entry =>
      rw [checkSeedlink_some cfg now probe cache s entry hfind]
      by_cases h : entry.requested > now - cfg.refreshIntervalMS
      · rw [if_pos h]
        constructor
        · intro heq
          injection heq with h1 h2
          subst h1
          exact ⟨rfl, by omega⟩
        · rintro ⟨hsome, -⟩
          injection hsome with h1
          subst h1
          rfl
      · rw [if_neg h]
        constructor
        · intro heq
          injection heq with h1 h2
          exact absurd h2 (by simp)
        · rintro ⟨hsome, hlt⟩
          injection hsome with h1
          subst h1
          exact absurd (by omega) h
  · intro e hfind hstale
    have hcheck : checkSeedlink cfg now probe cache s = (probe s, true) := by
      rw [checkSeedlink_some cfg now probe cache s e hfind, if_neg (by omega)]
    refine ⟨hcheck, ?_, ?_⟩
    · intro herrp
      unfold readSeedlinkStations
      simp only [List.reverse_cons, List.reverse_nil, List.nil_append]
      unfold readLoop
      rw [hcheck]
      simp only [if_neg herrp]
      unfold readLoop
      exact hfind
    · intro herrp
      unfold readSeedlinkStations
      simp only [List.reverse_cons, List.reverse_nil, List.nil_append]
      unfold readLoop
      rw [hcheck]
      simp only [herrp, if_true]
      unfold readLoop
      simp [cacheFind_set]

/-- C5 witness: a 100 ms old entry with a 1000 ms TTL is served from
the cache without a probe; 4100 ms after creation, the same entry is
ignored (fresh probe) but remains stored after the failing probe. -/
theorem claim5_witness :
    checkSeedlink sampleConfig 1000 sampleProbe sampleCache sampleServer =
      (sampleEntry, false) ∧
    checkSeedlink sampleConfig 5000 sampleProbeFail sampleCache sampleServer =
      (sampleProbeFail sampleServer, true) ∧
    cacheFind (readSeedlinkStations sampleConfig 5000 sampleProbeFail
      [sampleServer] sampleCache).2 sampleServer.url = some sampleEntry :=
  ⟨((claim5_cache_lookup sampleConfig 1000 sampleProbe sampleCache sampleServer).1
      sampleEntry).mpr ⟨by decide, by decide⟩,
   ((claim5_cache_lookup sampleConfig 5000 sampleProbeFail sampleCache sampleServer).2
      sampleEntry (by decide) (by decide)).1,
   (((claim5_cache_lookup sampleConfig 5000 sampleProbeFail sampleCache sampleServer).2
      sampleEntry (by decide) (by decide)).2.1 (by decide))⟩

theorem jsNumFalsy_iff (n : JsNum) :
    jsNumFalsy n = true ↔ n = JsNum.nan ∨ n = JsNum.val 0 := by
  cases n <;> simp [jsNumFalsy]

theorem parseHost_port (x : List Char) :
    (parseHost x).port =
      if jsNumFalsy (portNumberOf x) then JsNum.val 18000 else portNumberOf x := rfl

theorem parseHost_url (x : List Char) :
    (parseHost x).url =
      ((splitOnChar ':' x).getD 0 []).asString ++ ":" ++
        jsNumToString ((parseHost x).port) := rfl

/-- C9 counterexample: for the token `"a:0"` the port substring `"0"`
parses as the integer `0`, yet `parseHost` substitutes the default
18000, because `Number(port) || 18000` treats the falsy value `0` like
a parse failure. -/
theorem claim9_counterexample :
    jsNumber ("0".toList) = JsNum.val 0 ∧
    (parseHost ("a:0".toList)).port ≠ JsNum.val 0 ∧
    (parseHost ("a:0".toList)).port = JsNum.val 18000 :=
  ⟨by decide, by decide, by decide⟩

/-- C9 amended: `parseHost` is pure and total; the resulting port is
the default 18000 exactly when `Number` of the port substring is falsy
(`NaN` — including an absent substring — or `0`) or literally 18000;
whenever `Number` of the substring is truthy the port is that numeric
value (not necessarily an integer); and the `url` key is always
`host + ":" + port` with the resolved port, the host being everything
before the first colon. -/
theorem claim9_amended (x : List Char) :
    ((parseHost x).port = JsNum.val 18000 ↔
      (portNumberOf x = JsNum.nan ∨ portNumberOf x = JsNum.val 0 ∨
        portNumberOf x = JsNum.val 18000)) ∧
    (jsNumFalsy (portNumberOf x) = false → (parseHost x).port = portNumberOf x) ∧
    ((parseHost x).url =
      ((splitOnChar ':' x).getD 0 []).asString ++ ":" ++
        jsNumToString ((parseHost x).port)) ∧
    ((parseHost x).host = ((splitOnChar ':' x).getD 0 []).asString) := by
  refine ⟨?_, ?_, parseHost_url x, rfl⟩
  · rw [parseHost_port]
    by_cases hf : jsNumFalsy (portNumberOf x) = true
    · rw [if_pos hf]
      constructor
      · intro _
        rcases (jsNumFalsy_iff _).mp hf with h | h
        · exact Or.inl h
        · exact Or.inr (Or.inl h)
      · intro _
        rfl
    · rw [if_neg hf]
      constructor
      · intro h
        exact Or.inr (Or.inr h)
      · rintro (h | h | h)
        · exact absurd ((jsNumFalsy_iff _).mpr (Or.inl h)) hf
        · exact absurd ((jsNumFalsy_iff _).mpr (Or.inr h)) hf
        · exact h
  · intro hf
    rw [parseHost_port, if_neg (by simp [hf])]

/-- C9 witness: for the token `"h:99"` the truthy port 99 is kept and
the url key is rebuilt as `host:port`. -/
theorem claim9_witness :
    (parseHost ("h:99".toList)).port = portNumberOf ("h:99".toList) ∧
    (parseHost ("h:99".toList)).url =
      ((splitOnChar ':' ("h:99".toList)).getD 0 []).asString ++ ":" ++
        jsNumToString ((parseHost ("h:99".toList)).port) :=
  ⟨(claim9_amended ("h:99".toList)).2.1 (by decide),
   (claim9_amended ("h:99".toList)).2.2.1⟩
